import Mathlib

/-!
Verification of the burnrate usage-tracking core (package `tracker`,
`internal/tracker/tracker.go`) and the parser-side deduplication logic
(`internal/parser/opencode.go`, `internal/parser/aider.go`,
`internal/parser/crush.go`).

Modelling conventions:
* Go `float64` dollar amounts are modelled as `Rat`; Go `int` token counts as
  `Int` (no arithmetic here comes near machine-word bounds); `time.Time`
  values as `Int` Unix seconds, passed explicitly as a `now` argument where
  the source calls `time.Now()`.
* The Go map `Tracker.ToolStatuses : map[string]*ToolStatus` stores pointers,
  and `GetToolStatuses` returns those pointers, so pointer aliasing is
  observable.  We model it with an explicit heap: `toolRefs` maps a tool name
  to an address and `heap` maps addresses to `ToolStatus` values.
  `SetToolStatus` allocates a fresh address (Go takes the address of the
  by-value parameter), `IncrementToolEvents` mutates in place through the
  stored address.
* `sort.Slice` in `GetToolStatuses` sorts by the strict `Name <` comparator
  over distinct map keys, so every correct sort returns the same list; in
  `GetHistoricalUsage` it sorts by the strict `Cost >` comparator, and for the
  small slices involved Go uses insertion sort, whose output is sorted
  non-increasing with ties kept in input order.  Both are modelled with
  `List.insertionSort` on the corresponding non-strict relation, which has
  exactly that behaviour.
* File system watching, JSON decoding and SQLite access happen before the
  logic under verification; the parser functions here take the already
  decoded record as input (unreadable or unparseable records make the source
  functions return without touching any state).  The external pricing oracle
  `pricing.CalculateCost` is passed in as a function argument, and the
  best-effort history write `storage.RecordUsage` (whose error is discarded
  by `AddUsageWithTool`) does not touch tracker state.
-/

namespace Burnrate

/-- `tracker.Usage` from `internal/tracker/tracker.go`. -/
structure Usage where
  Model : String
  PromptTokens : Int
  CompletionTokens : Int
  TotalTokens : Int
  Cost : Rat
  Timestamp : Int
  deriving Repr, DecidableEq

/-- `tracker.ToolStatus`; `ToolTier` is a Go `int` (constants 1 and 2). -/
structure ToolStatus where
  Name : String
  Tier : Int
  Status : String
  Message : String
  DashboardURL : String
  EventCount : Int
  LastEventTime : Int
  deriving Repr, DecidableEq

def TierFullTracking : Int := 1

def TierDetectionOnly : Int := 2

/-- Association-list lookup, first occurrence wins (Go map lookup; the lists
built by the operations below never hold a key twice). -/
def assocLookup {κ α : Type} [DecidableEq κ] (k : κ) : List (κ × α) → Option α
  | [] => none
  | (k1, v) :: rest => if k1 = k then some v else assocLookup k rest

/-- Association-list update-or-insert (Go map assignment). -/
def assocSet {κ α : Type} [DecidableEq κ] (k : κ) (v : α) : List (κ × α) → List (κ × α)
  | [] => [(k, v)]
  | (k1, v1) :: rest => if k1 = k then (k, v) :: rest else (k1, v1) :: assocSet k v rest

/-- `tracker.Tracker`: session ledger plus the tool-status registry
(`ToolStatuses` split into the name→address map `toolRefs` and the
address→value `heap`, see the module comment). -/
structure Tracker where
  SessionCost : Rat
  SessionUsages : List Usage
  StartTime : Int
  toolRefs : List (String × Nat)
  heap : List (Nat × ToolStatus)
  nextRef : Nat
  deriving Repr, DecidableEq

/-- The initial `tracker.Global` value: zero cost, no usages, empty registry. -/
def Global (now : Int) : Tracker :=
  { SessionCost := 0, SessionUsages := [], StartTime := now,
    toolRefs := [], heap := [], nextRef := 0 }

/-- The `Usage` literal built inside `AddUsage`. -/
def mkUsage (model : String) (prompt completion : Int) (cost : Rat) (now : Int) : Usage :=
  { Model := model, PromptTokens := prompt, CompletionTokens := completion,
    TotalTokens := prompt + completion, Cost := cost, Timestamp := now }

/-- `(*Tracker).AddUsage`: append the record and add its cost to the running
total (one atomic step under `t.mu`; the `fmt.Printf` line is output only). -/
def Tracker.AddUsage (t : Tracker) (model : String) (prompt completion : Int)
    (cost : Rat) (now : Int) : Tracker :=
  { t with
    SessionUsages := t.SessionUsages ++ [mkUsage model prompt completion cost now],
    SessionCost := t.SessionCost + cost }

/-- `(*Tracker).AddUsageWithTool`: `AddUsage` plus a best-effort
`storage.RecordUsage` write whose error is discarded and which does not touch
tracker state. -/
def Tracker.AddUsageWithTool (t : Tracker) (_tool model : String)
    (prompt completion : Int) (cost : Rat) (now : Int) : Tracker :=
  t.AddUsage model prompt completion cost now

/-- `(*Tracker).GetSessionCost`. -/
def Tracker.GetSessionCost (t : Tracker) : Rat := t.SessionCost

/-- `(*Tracker).GetBurnRatePerHour`: 0 when no usages or elapsed time ≤ 0,
otherwise `SessionCost / hours-since-StartTime`
(`time.Since(t.StartTime).Hours()` with timestamps in seconds). -/
def Tracker.GetBurnRatePerHour (t : Tracker) (now : Int) : Rat :=
  if t.SessionUsages.length = 0 then 0
  else
    let duration : Rat := ((now - t.StartTime : Int) : Rat) / 3600
    if duration ≤ 0 then 0
    else t.SessionCost / duration

/-- `(*Tracker).GetUsages`: a copy of the record list (Lean lists are values,
so the copy is the value itself). -/
def Tracker.GetUsages (t : Tracker) : List Usage := t.SessionUsages

/-- `(*Tracker).Reset`: zero the cost, clear the records, restart the clock. -/
def Tracker.Reset (t : Tracker) (now : Int) : Tracker :=
  { t with SessionCost := 0, SessionUsages := [], StartTime := now }

/-- `(*Tracker).SetToolStatus`: `t.ToolStatuses[status.Name] = &status` — the
address of the by-value parameter is fresh, so this allocates a new cell and
repoints the name at it (last writer wins, no field merging). -/
def Tracker.SetToolStatus (t : Tracker) (status : ToolStatus) : Tracker :=
  { t with
    toolRefs := assocSet status.Name t.nextRef t.toolRefs,
    heap := t.heap ++ [(t.nextRef, status)],
    nextRef := t.nextRef + 1 }

/-- Dereference one stored `*ToolStatus`. -/
def Tracker.statusAt (t : Tracker) (r : Nat) : Option ToolStatus :=
  assocLookup r t.heap

/-- The `Name` field seen through an address (used only as a sort key; every
address handed out by the operations is live). -/
def nameAt (t : Tracker) (r : Nat) : String :=
  ((t.statusAt r).map ToolStatus.Name).getD ""

/-- `(*Tracker).GetToolStatuses`: collect the stored pointers and sort them by
the pointed-to `Name` (`sort.Slice` on the strict `<` over distinct names,
i.e. the unique non-decreasing arrangement). -/
def Tracker.GetToolStatuses (t : Tracker) : List Nat :=
  (t.toolRefs.map Prod.snd).insertionSort fun r1 r2 => nameAt t r1 ≤ nameAt t r2

/-- What a caller holding the returned pointer list observes at a given
moment: the dereferenced `ToolStatus` values. -/
def viewRefs (t : Tracker) (refs : List Nat) : List (Option ToolStatus) :=
  refs.map t.statusAt

/-- The in-place mutation `status.EventCount++; status.LastEventTime = now`. -/
def bumpStatus (now : Int) (s : ToolStatus) : ToolStatus :=
  { s with EventCount := s.EventCount + 1, LastEventTime := now }

/-- Mutate the cell at address `r` in the heap. -/
def heapBump (r : Nat) (now : Int) : List (Nat × ToolStatus) → List (Nat × ToolStatus)
  | [] => []
  | (r1, s) :: rest =>
    if r1 = r then (r1, bumpStatus now s) :: rest else (r1, s) :: heapBump r now rest

/-- `(*Tracker).IncrementToolEvents`: bump the entry in place if the name is
known, otherwise do nothing (a nil or missing map entry is a silent no-op). -/
def Tracker.IncrementToolEvents (t : Tracker) (toolName : String) (now : Int) : Tracker :=
  match assocLookup toolName t.toolRefs with
  | none => t
  | some r => { t with heap := heapBump r now t.heap }

/-- `(*Tracker).GetToolStatus` composed with dereference: the `ToolStatus`
value currently registered under a name. -/
def Tracker.toolStatusOf (t : Tracker) (name : String) : Option ToolStatus :=
  (assocLookup name t.toolRefs).bind t.statusAt

/-- One per-model aggregate coming back from `storage.GetUsageSummary`. -/
structure SummaryData where
  PromptTokens : Int
  CompletionTokens : Int
  Cost : Rat
  deriving Repr, DecidableEq

/-- The conversion-and-sort tail of `(*Tracker).GetHistoricalUsage`: build a
`Usage` per summary entry (map iteration order is the input list order) and
sort by descending cost (`sort.Slice` on strict `Cost >`; modelled by a
stable sort on the non-strict relation, see the module comment). -/
def summaryToUsages (summary : List (String × SummaryData)) : List Usage :=
  (summary.map fun p =>
    { Model := p.1, PromptTokens := p.2.PromptTokens,
      CompletionTokens := p.2.CompletionTokens,
      TotalTokens := p.2.PromptTokens + p.2.CompletionTokens,
      Cost := p.2.Cost, Timestamp := 0 }).insertionSort fun u v => v.Cost ≤ u.Cost

/-- `(*Tracker).GetHistoricalUsage`: resolve the window to a cutoff
(`midnightToday` / `weekAgo` stand for the two `time` computations), fetch the
summary through the storage layer (passed in as `summarize`), and shape the
result; an unknown window or a storage error is returned as an error. -/
def GetHistoricalUsage (window : String) (midnightToday weekAgo : Int)
    (summarize : Int → Except String (List (String × SummaryData) × Rat)) :
    Except String (List Usage × Rat) :=
  match window with
  | "today" => (summarize midnightToday).map fun p => (summaryToUsages p.1, p.2)
  | "week" => (summarize weekAgo).map fun p => (summaryToUsages p.1, p.2)
  | _ => Except.error ("invalid window: " ++ window)

/-! OpenCode message files (`internal/parser/opencode.go`). -/

/-- The token block of an OpenCode `Message`. -/
structure MessageTokens where
  input : Int
  output : Int
  reasoning : Int
  cacheRead : Int
  cacheWrite : Int
  deriving Repr, DecidableEq

/-- `parser.Message` (the fields `parseMessageFile` reads; `SessionID`,
`Role` and the timestamp are decoded but never used by it). -/
structure Message where
  ID : String
  ModelID : String
  ProviderID : String
  Cost : Rat
  Tokens : MessageTokens
  deriving Repr, DecidableEq

/-- `parser.parseMessageFile` on an already decoded message (an unreadable or
unparseable file returns with no state change).  State threaded explicitly:
the `processedMessageIDs` dedup set and the global tracker. -/
def parseMessageFile (price : String → Int → Int → Rat) (processed : List String)
    (tr : Tracker) (msg : Message) (now : Int) : List String × Tracker :=
  if msg.Tokens.input = 0 ∧ msg.Tokens.output = 0 then (processed, tr)
  else if msg.ID ∈ processed then (processed, tr)
  else
    let processed1 := msg.ID :: processed
    let model := if msg.ProviderID ≠ "" then msg.ModelID ++ " (" ++ msg.ProviderID ++ ")"
      else msg.ModelID
    let input := msg.Tokens.input + msg.Tokens.cacheRead
    let output := msg.Tokens.output + msg.Tokens.reasoning + msg.Tokens.cacheWrite
    let cost := if 0 < msg.Cost ∧ msg.Cost < 100 then msg.Cost
      else price msg.ModelID input output
    (processed1, (tr.AddUsage model input output cost now).IncrementToolEvents "OpenCode" now)

/-! Aider analytics log (`internal/parser/aider.go`). -/

/-- `parser.AiderEventProperties` (the fields the processing loop reads). -/
structure AiderEventProperties where
  MainModel : String
  PromptTokens : Int
  CompletionTokens : Int
  TotalTokens : Int
  Cost : Rat
  deriving Repr, DecidableEq

/-- `parser.AiderAnalyticsEvent`. -/
structure AiderAnalyticsEvent where
  event : String
  properties : AiderEventProperties
  UserID : String
  Time : Int
  deriving Repr, DecidableEq

/-- `parser.makeAiderEventKey`: `"%s:%s:%s:%d"` over user id, main model,
RFC3339-formatted timestamp and total tokens.  The RFC3339 rendering of the
Unix-seconds value is modelled by its decimal rendering; both are injective
in the timestamp. -/
def makeAiderEventKey (e : AiderAnalyticsEvent) : String :=
  e.UserID ++ ":" ++ e.properties.MainModel ++ ":" ++ toString e.Time ++ ":"
    ++ toString e.properties.TotalTokens

/-- The loop body of `parser.processAiderLogFile` for one decoded JSONL line
(blank or unparseable lines are skipped before this logic runs). -/
def processAiderLine (processed : List String) (tr : Tracker)
    (e : AiderAnalyticsEvent) (now : Int) : List String × Tracker :=
  if e.event ≠ "message_send" then (processed, tr)
  else
    let eventKey := makeAiderEventKey e
    if eventKey ∈ processed then (processed, tr)
    else
      let processed1 := eventKey :: processed
      if e.properties.TotalTokens = 0 then (processed1, tr)
      else
        let model := if e.properties.MainModel = "" then "aider-unknown"
          else e.properties.MainModel
        let cost := e.properties.Cost
        (processed1,
          (tr.AddUsage model e.properties.PromptTokens e.properties.CompletionTokens
            cost now).IncrementToolEvents "Aider" now)

/-- `parser.processAiderLogFile`: fold the loop body over the decoded lines. -/
def processAiderLogFile (events : List AiderAnalyticsEvent) (processed : List String)
    (tr : Tracker) (now : Int) : List String × Tracker :=
  events.foldl (fun st e => processAiderLine st.1 st.2 e now) (processed, tr)

/-! Crush SQLite database (`internal/parser/crush.go`). -/

/-- `parser.CrushSession` (the fields `processCrushDB` uses;
`ParentSessionID`, `Title` and `MessageCount` are scanned but never read). -/
structure CrushSession where
  ID : String
  PromptTokens : Int
  CompletionTokens : Int
  Cost : Rat
  CreatedAt : Int
  UpdatedAt : Int
  deriving Repr, DecidableEq

/-- The mutable state of the Crush poller: the
`processedCrushSessions : sessionID → last updated_at` map plus the global
tracker. -/
structure CrushState where
  processed : List (String × Int)
  tr : Tracker
  deriving Repr, DecidableEq

/-- The loop body of `parser.processCrushDB` for one scanned session row.
`model0` is the result of the `getSessionPrimaryModel` lookup for the row. -/
def processCrushRow (price : String → Int → Int → Rat) (st : CrushState)
    (row : CrushSession) (model0 : String) (now : Int) : CrushState :=
  let seen := assocLookup row.ID st.processed
  let skip : Bool :=
    match seen with
    | some lastUpdated => decide (lastUpdated ≥ row.UpdatedAt)
    | none => false
  if skip then st
  else
    let model := if model0 = "" then "crush-unknown" else model0
    -- In the source, the `if exists` and `else` branches both assign the
    -- row's full cumulative totals ("For simplicity, we'll just add the
    -- total if it's the first time").
    let deltas :=
      if seen.isSome then (row.PromptTokens, row.CompletionTokens, row.Cost)
      else (row.PromptTokens, row.CompletionTokens, row.Cost)
    let promptDelta := deltas.1
    let completionDelta := deltas.2.1
    let costDelta0 := deltas.2.2
    let costDelta :=
      if costDelta0 ≤ 0 ∧ (0 < promptDelta ∨ 0 < completionDelta) then
        price model promptDelta completionDelta
      else costDelta0
    let tr1 :=
      if 0 < promptDelta ∨ 0 < completionDelta then
        (st.tr.AddUsageWithTool "Crush" model promptDelta completionDelta
          costDelta now).IncrementToolEvents "Crush" now
      else st.tr
    { processed := assocSet row.ID row.UpdatedAt st.processed, tr := tr1 }

/-- `parser.processCrushDB`: fold the row loop over the query result (rows
with `prompt_tokens > 0 OR completion_tokens > 0`, ordered by `created_at`);
each row is paired with its `getSessionPrimaryModel` result. -/
def processCrushDB (price : String → Int → Int → Rat) (st : CrushState)
    (rowsWithModel : List (CrushSession × String)) (now : Int) : CrushState :=
  rowsWithModel.foldl (fun st1 p => processCrushRow price st1 p.1 p.2 now) st

/-! Operation sequences over the session ledger. -/

/-- One observable writer call on the session ledger. -/
inductive TrackerOp where
  | add (model : String) (prompt completion : Int) (cost : Rat) (now : Int)
  | reset (now : Int)
  deriving Repr, DecidableEq

def applyOp (t : Tracker) : TrackerOp → Tracker
  | .add model prompt completion cost now => t.AddUsage model prompt completion cost now
  | .reset now => t.Reset now

def applyOps (t : Tracker) (ops : List TrackerOp) : Tracker :=
  ops.foldl applyOp t

/-- The §3 SessionLedger invariant: the running total equals the sum of the
costs of the records currently held. -/
def costInvariant (t : Tracker) : Prop :=
  t.SessionCost = (t.SessionUsages.map Usage.Cost).sum

def TrackerOp.isAdd : TrackerOp → Bool
  | .add _ _ _ _ _ => true
  | .reset _ => false

def TrackerOp.cost : TrackerOp → Rat
  | .add _ _ _ cost _ => cost
  | .reset _ => 0

/-! Helper lemmas. -/

theorem sessionUsages_incrementToolEvents (t : Tracker) (n : String) (now : Int) :
    (t.IncrementToolEvents n now).SessionUsages = t.SessionUsages := by
  unfold Tracker.IncrementToolEvents
  cases assocLookup n t.toolRefs <;> rfl

theorem sessionCost_incrementToolEvents (t : Tracker) (n : String) (now : Int) :
    (t.IncrementToolEvents n now).SessionCost = t.SessionCost := by
  unfold Tracker.IncrementToolEvents
  cases assocLookup n t.toolRefs <;> rfl

theorem toolRefs_incrementToolEvents (t : Tracker) (n : String) (now : Int) :
    (t.IncrementToolEvents n now).toolRefs = t.toolRefs := by
  unfold Tracker.IncrementToolEvents
  cases assocLookup n t.toolRefs <;> rfl

theorem assocLookup_heapBump (r k : Nat) (now : Int) (h : List (Nat × ToolStatus)) :
    assocLookup k (heapBump r now h)
      = if k = r then (assocLookup k h).map (bumpStatus now) else assocLookup k h := by
  induction h with
  | nil => simp [heapBump, assocLookup]
  | cons hd tl ih =>
    obtain ⟨r1, s⟩ := hd
    by_cases hr : r1 = r
    · subst hr
      by_cases hk : r1 = k
      · subst hk
        simp [heapBump, assocLookup]
      · have hkr : ¬ k = r1 := fun hh => hk hh.symm
        simp [heapBump, assocLookup, hk, hkr]
    · by_cases hk : r1 = k
      · subst hk
        have hkr : ¬ r1 = r := hr
        simp [heapBump, assocLookup, hkr]
      · have hkr : ¬ k = r1 := fun hh => hk hh.symm
        simp [heapBump, assocLookup, hr, hk, ih]

theorem costInvariant_applyOp (t : Tracker) (op : TrackerOp) (h : costInvariant t) :
    costInvariant (applyOp t op) := by
  cases op with
  | add model prompt completion cost now =>
    show costInvariant (t.AddUsage model prompt completion cost now)
    unfold costInvariant at h ⊢
    unfold Tracker.AddUsage
    simp only [List.map_append, List.sum_append, List.map_cons, List.sum_cons,
      List.map_nil, List.sum_nil, add_zero]
    rw [h]
    rfl
  | reset now =>
    show costInvariant (t.Reset now)
    unfold costInvariant Tracker.Reset
    simp

theorem costInvariant_applyOps (t : Tracker) (ops : List TrackerOp)
    (h : costInvariant t) : costInvariant (applyOps t ops) := by
  induction ops generalizing t with
  | nil => exact h
  | cons op rest ih =>
    exact ih (applyOp t op) (costInvariant_applyOp t op h)

theorem applyOps_addOnly_cost (ops : List TrackerOp) :
    ∀ t : Tracker, (∀ op ∈ ops, op.isAdd = true) →
      (applyOps t ops).SessionCost = t.SessionCost + (ops.map TrackerOp.cost).sum := by
  induction ops with
  | nil => intro t _; simp [applyOps]
  | cons op rest ih =>
    intro t h
    cases op with
    | add model prompt completion cost now =>
      have step := ih (t.AddUsage model prompt completion cost now)
        fun o ho => h o (List.mem_cons_of_mem _ ho)
      show (applyOps (applyOp t (.add model prompt completion cost now)) rest).SessionCost = _
      rw [show applyOp t (.add model prompt completion cost now)
          = t.AddUsage model prompt completion cost now from rfl, step]
      unfold Tracker.AddUsage
      simp only [List.map_cons, List.sum_cons, TrackerOp.cost]
      ring
    | reset now =>
      have : TrackerOp.isAdd (.reset now) = true := h _ (List.mem_cons_self _ _)
      simp [TrackerOp.isAdd] at this

/-! Concrete values used by witnesses and counterexamples. -/

def sampleTracker : Tracker := (Global 0).AddUsage "m" 1 2 6 10

def opencodeStatus : ToolStatus :=
  { Name := "OpenCode", Tier := TierFullTracking, Status := "active",
    Message := "Watching storage", DashboardURL := "",
    EventCount := 0, LastEventTime := 0 }

def aiderStatus : ToolStatus :=
  { Name := "Aider", Tier := TierFullTracking, Status := "active",
    Message := "Watching analytics log", DashboardURL := "",
    EventCount := 0, LastEventTime := 0 }

def crushRowA : CrushSession :=
  { ID := "ses1", PromptTokens := 80, CompletionTokens := 20, Cost := 100,
    CreatedAt := 0, UpdatedAt := 1 }

def crushRowB : CrushSession :=
  { ID := "ses1", PromptTokens := 200, CompletionTokens := 50, Cost := 250,
    CreatedAt := 0, UpdatedAt := 2 }

def oneSummary : List (String × SummaryData) :=
  [("m", { PromptTokens := 1, CompletionTokens := 2, Cost := 3 })]

/-! Claim theorems. -/

/-- C1: the Crush poller, observing the same session row with cumulative
totals 100, then 250, then 250 (`updated_at` unchanged on the last poll),
leaves the ledger at 350: the unchanged third poll is skipped by the
`updated_at` guard (so 600 is avoided), but the second poll re-adds the full
cumulative 250 instead of the 150 delta, so the delta-tracking contract the
claim states (final ledger 250) is violated by the code. -/
theorem C1_crush_cumulative_double_count :
    (processCrushDB (fun _ _ _ => 0) { processed := [], tr := Global 0 }
        [(crushRowA, "m"), (crushRowB, "m"), (crushRowB, "m")] 3).tr.GetSessionCost = 350 ∧
    (350 : Rat) ≠ 250 ∧ (350 : Rat) ≠ 600 := by
  refine ⟨by with_unfolding_all rfl, by norm_num, by norm_num⟩

/-- C2: after any finite sequence of AddUsage/Reset steps from a state
satisfying the ledger invariant, SessionCost still equals the sum of the
costs of the records held; and after a Reset followed by AddUsage calls only,
GetSessionCost is exactly the sum of their cost arguments. -/
theorem C2_ledger_invariant :
    (∀ (t : Tracker) (ops : List TrackerOp), costInvariant t →
      costInvariant (applyOps t ops)) ∧
    (∀ (t : Tracker) (now : Int) (ops : List TrackerOp),
      (∀ op ∈ ops, op.isAdd = true) →
      (applyOps (t.Reset now) ops).GetSessionCost = (ops.map TrackerOp.cost).sum) := by
  constructor
  · exact costInvariant_applyOps
  · intro t now ops h
    unfold Tracker.GetSessionCost
    rw [applyOps_addOnly_cost ops (t.Reset now) h]
    show (0 : Rat) + _ = _
    rw [zero_add]

theorem C2_ledger_invariant_witness :
    costInvariant (applyOps (Global 0)
      [.add "m" 1 2 3 5, .reset 6, .add "n" 1 1 2 7]) ∧
    (applyOps ((Global 0).Reset 1)
        [.add "m" 1 2 3 5, .add "n" 0 0 2 6]).GetSessionCost
      = ([TrackerOp.add "m" 1 2 3 5, .add "n" 0 0 2 6].map TrackerOp.cost).sum :=
  ⟨C2_ledger_invariant.1 (Global 0) _ (by with_unfolding_all rfl),
   C2_ledger_invariant.2 (Global 0) 1 _ (by decide)⟩

/-- C6: GetBurnRatePerHour is 0 when the record list is empty or the elapsed
time is ≤ 0 (in particular immediately after Reset), and otherwise equals
SessionCost divided by the elapsed hours. -/
theorem C6_burn_rate (t : Tracker) (now : Int) :
    (t.SessionUsages = [] → t.GetBurnRatePerHour now = 0) ∧
    (((now - t.StartTime : Int) : Rat) / 3600 ≤ 0 → t.GetBurnRatePerHour now = 0) ∧
    (t.SessionUsages ≠ [] → 0 < ((now - t.StartTime : Int) : Rat) / 3600 →
      t.GetBurnRatePerHour now
        = t.GetSessionCost / (((now - t.StartTime : Int) : Rat) / 3600)) ∧
    (∀ now1 : Int, (t.Reset now1).GetBurnRatePerHour now = 0) := by
  refine ⟨?_, ?_, ?_, ?_⟩
  · intro h
    unfold Tracker.GetBurnRatePerHour
    rw [if_pos (by simp [h])]
  · intro h
    unfold Tracker.GetBurnRatePerHour
    dsimp only
    by_cases h0 : t.SessionUsages.length = 0
    · rw [if_pos h0]
    · rw [if_neg h0, if_pos h]
  · intro hne hpos
    unfold Tracker.GetBurnRatePerHour Tracker.GetSessionCost
    dsimp only
    rw [if_neg (by simpa [List.length_eq_zero] using hne), if_neg (not_le.mpr hpos)]
  · intro now1
    unfold Tracker.Reset Tracker.GetBurnRatePerHour
    simp

theorem C6_burn_rate_witness :
    (Global 0).GetBurnRatePerHour 5 = 0 ∧
    sampleTracker.GetBurnRatePerHour 0 = 0 ∧
    sampleTracker.GetBurnRatePerHour 7200
      = sampleTracker.GetSessionCost
        / (((7200 - sampleTracker.StartTime : Int) : Rat) / 3600) ∧
    (sampleTracker.Reset 9).GetBurnRatePerHour 7200 = 0 :=
  ⟨(C6_burn_rate (Global 0) 5).1 rfl,
   (C6_burn_rate sampleTracker 0).2.1
     (by norm_num [sampleTracker, Global, Tracker.AddUsage]),
   (C6_burn_rate sampleTracker 7200).2.2.1
     (by simp [sampleTracker, Global, Tracker.AddUsage])
     (by norm_num [sampleTracker, Global, Tracker.AddUsage]),
   (C6_burn_rate sampleTracker 7200).2.2.2 9⟩

/-- C7: for every prior state, Reset leaves GetSessionCost at 0 and GetUsages
empty, and in the same step zeroes SessionCost, clears SessionUsages and sets
StartTime to the supplied current time. -/
theorem C7_reset (t : Tracker) (now : Int) :
    (t.Reset now).GetSessionCost = 0 ∧ (t.Reset now).GetUsages = [] ∧
    (t.Reset now).SessionCost = 0 ∧ (t.Reset now).SessionUsages = [] ∧
    (t.Reset now).StartTime = now :=
  ⟨rfl, rfl, rfl, rfl, rfl⟩

/-- C8: IncrementToolEvents on a name with no registry entry returns the
tracker unchanged (no error, no new entry); on a name with an entry it
increments that entry's EventCount by one and stamps LastEventTime with the
current time. -/
theorem C8_increment_events (t : Tracker) (name : String) (now : Int) :
    (assocLookup name t.toolRefs = none → t.IncrementToolEvents name now = t) ∧
    (∀ s : ToolStatus, t.toolStatusOf name = some s →
      (t.IncrementToolEvents name now).toolStatusOf name
        = some { s with EventCount := s.EventCount + 1, LastEventTime := now }) := by
  constructor
  · intro h
    unfold Tracker.IncrementToolEvents
    rw [h]
  · intro s h
    unfold Tracker.toolStatusOf at h
    rcases hr : assocLookup name t.toolRefs with _ | r
    · rw [hr] at h; simp at h
    · rw [hr] at h
      simp only [Option.some_bind] at h
      unfold Tracker.statusAt at h
      have hstep : t.IncrementToolEvents name now
          = { t with heap := heapBump r now t.heap } := by
        unfold Tracker.IncrementToolEvents
        rw [hr]
      rw [hstep]
      show (assocLookup name t.toolRefs).bind
        (fun r1 => assocLookup r1 (heapBump r now t.heap)) = _
      rw [hr]
      simp only [Option.some_bind]
      rw [assocLookup_heapBump, if_pos rfl, h]
      rfl

theorem C8_increment_events_witness :
    ((Global 0).IncrementToolEvents "OpenCode" 5 = Global 0) ∧
    (((Global 0).SetToolStatus opencodeStatus).IncrementToolEvents
        "OpenCode" 7).toolStatusOf "OpenCode"
      = some { opencodeStatus with
               EventCount := opencodeStatus.EventCount + 1,
               LastEventTime := 7 } :=
  ⟨(C8_increment_events (Global 0) "OpenCode" 5).1 (by decide),
   (C8_increment_events ((Global 0).SetToolStatus opencodeStatus) "OpenCode" 7).2
      opencodeStatus (by decide)⟩

/-- The implicit token invariant: the stored total equals prompt plus
completion tokens. -/
def usageTotalsOk (u : Usage) : Prop :=
  u.TotalTokens = u.PromptTokens + u.CompletionTokens

/-- C10: every Usage the tracker builds — the record AddUsage appends and
every per-model record GetHistoricalUsage returns — satisfies
`TotalTokens = PromptTokens + CompletionTokens`. -/
theorem C10_total_tokens (t : Tracker) (model : String) (prompt completion : Int)
    (cost : Rat) (now : Int) (summary : List (String × SummaryData)) :
    (t.AddUsage model prompt completion cost now).SessionUsages
      = t.SessionUsages ++ [mkUsage model prompt completion cost now] ∧
    usageTotalsOk (mkUsage model prompt completion cost now) ∧
    (∀ u ∈ summaryToUsages summary, usageTotalsOk u) := by
  refine ⟨rfl, rfl, ?_⟩
  intro u hu
  unfold summaryToUsages at hu
  rw [List.mem_insertionSort] at hu
  obtain ⟨p, _, rfl⟩ := List.mem_map.mp hu
  rfl

def sampleSummaryUsage : Usage :=
  { Model := "m", PromptTokens := 1, CompletionTokens := 2,
    TotalTokens := 3, Cost := 3, Timestamp := 0 }

theorem C10_total_tokens_witness :
    usageTotalsOk sampleSummaryUsage :=
  (C10_total_tokens (Global 0) "m" 1 2 3 0 oneSummary).2.2 _ (by
    have h : summaryToUsages oneSummary = [sampleSummaryUsage] := rfl
    rw [h]
    exact List.mem_singleton_self _)

/-- C3 counterexample: a registry trace every watcher actually produces —
report a status, record one event (EventCount becomes 1), then report a fresh
status again (as the Aider watcher does on every file event, with the zero
EventCount of a new struct literal) — drops the existing entry's EventCount
from 1 back to 0, so the registry operations do not keep EventCount
monotonic. -/
theorem C3_event_count_decreases :
    ((((Global 0).SetToolStatus aiderStatus).IncrementToolEvents "Aider" 1).toolStatusOf
        "Aider").map ToolStatus.EventCount = some 1 ∧
    (((((Global 0).SetToolStatus aiderStatus).IncrementToolEvents "Aider" 1).SetToolStatus
        aiderStatus).toolStatusOf "Aider").map ToolStatus.EventCount = some 0 := by
  exact ⟨by decide, by decide⟩

/-- C3 (amended): IncrementToolEvents never decreases any entry's EventCount
(and pure reads cannot); it is SetToolStatus that replaces an entry wholesale
with the caller-supplied struct and can therefore lower it. -/
theorem C3_increment_monotone (t : Tracker) (name name1 : String) (now : Int)
    (s s1 : ToolStatus) (h : t.toolStatusOf name1 = some s)
    (h1 : (t.IncrementToolEvents name now).toolStatusOf name1 = some s1) :
    s.EventCount ≤ s1.EventCount := by
  rcases hn : assocLookup name t.toolRefs with _ | r
  · have heq : t.IncrementToolEvents name now = t := by
      unfold Tracker.IncrementToolEvents
      rw [hn]
    rw [heq, h] at h1
    cases Option.some.inj h1
    exact le_refl _
  · have heq : t.IncrementToolEvents name now
        = { t with heap := heapBump r now t.heap } := by
      unfold Tracker.IncrementToolEvents
      rw [hn]
    rw [heq] at h1
    unfold Tracker.toolStatusOf at h h1
    dsimp only at h1
    rcases hm : assocLookup name1 t.toolRefs with _ | r1
    · rw [hm] at h
      simp at h
    · rw [hm] at h h1
      simp only [Option.some_bind] at h h1
      unfold Tracker.statusAt at h h1
      dsimp only at h1
      rw [assocLookup_heapBump] at h1
      by_cases hrr : r1 = r
      · rw [if_pos hrr, h] at h1
        simp only [Option.map_some'] at h1
        cases Option.some.inj h1
        simp only [bumpStatus]
        omega
      · rw [if_neg hrr, h] at h1
        cases Option.some.inj h1
        exact le_refl _

theorem C3_increment_monotone_witness :
    aiderStatus.EventCount ≤ (bumpStatus 1 aiderStatus).EventCount :=
  C3_increment_monotone ((Global 0).SetToolStatus aiderStatus) "Aider" "Aider" 1
    aiderStatus (bumpStatus 1 aiderStatus) (by decide) (by decide)

/-! C4 material. -/

def tieSummary : List (String × SummaryData) :=
  [("Zeta", { PromptTokens := 1, CompletionTokens := 1, Cost := 1 }),
   ("Alpha", { PromptTokens := 1, CompletionTokens := 1, Cost := 1 })]

def uZeta : Usage :=
  { Model := "Zeta", PromptTokens := 1, CompletionTokens := 1,
    TotalTokens := 2, Cost := 1, Timestamp := 0 }

def uAlpha : Usage :=
  { Model := "Alpha", PromptTokens := 1, CompletionTokens := 1,
    TotalTokens := 2, Cost := 1, Timestamp := 0 }

/-- The ordering the claim asserts: non-increasing cost with equal-cost
entries ordered by ascending model identifier. -/
def costDescModelAscTie (l : List Usage) : Prop :=
  l.Pairwise fun u v => v.Cost ≤ u.Cost ∧ (u.Cost = v.Cost → u.Model ≤ v.Model)

/-- C4 counterexample: with two equal-cost models arriving from map
iteration in the order Zeta, Alpha, the sort (whose comparator looks only at
`Cost`) returns them in that same order, so the per-model breakdown is not
tie-broken by ascending model identifier. -/
theorem C4_tie_break_missing :
    summaryToUsages tieSummary = [uZeta, uAlpha] ∧
    ¬ costDescModelAscTie (summaryToUsages tieSummary) := by
  have hs : summaryToUsages tieSummary = [uZeta, uAlpha] := by
    with_unfolding_all rfl
  refine ⟨hs, ?_⟩
  rw [costDescModelAscTie, hs]
  intro hP
  have h2 := (List.pairwise_cons.mp hP).1 uAlpha (List.mem_singleton_self _)
  have h3 : uZeta.Model ≤ uAlpha.Model := h2.2 rfl
  have h4 : ¬ ((("Zeta" : String)) ≤ "Alpha") := by
    rw [not_le, String.lt_iff_toList_lt]
    decide
  exact h4 h3

/-- C4 (amended): the per-model breakdown is sorted by non-increasing cost;
equal-cost entries stay in map-iteration order — the model identifier plays
no part in the comparator, so the order of ties is not deterministic. -/
theorem C4_sorted_by_cost_desc (summary : List (String × SummaryData)) :
    (summaryToUsages summary).Sorted fun u v => v.Cost ≤ u.Cost := by
  unfold summaryToUsages
  haveI : IsTotal Usage fun u v => v.Cost ≤ u.Cost := ⟨fun a b => le_total b.Cost a.Cost⟩
  haveI : IsTrans Usage fun u v => v.Cost ≤ u.Cost :=
    ⟨fun a b c hab hbc => le_trans hbc hab⟩
  exact List.sorted_insertionSort _ _

/-! C5 material. -/

def zeroAiderEvent : AiderAnalyticsEvent :=
  { event := "message_send",
    properties := { MainModel := "m", PromptTokens := 0, CompletionTokens := 0,
                    TotalTokens := 0, Cost := 0 },
    UserID := "u", Time := 0 }

def fullAiderEvent : AiderAnalyticsEvent :=
  { event := "message_send",
    properties := { MainModel := "m", PromptTokens := 3, CompletionTokens := 4,
                    TotalTokens := 7, Cost := 1 },
    UserID := "u", Time := 0 }

def zeroMsg : Message :=
  { ID := "msg1", ModelID := "m", ProviderID := "", Cost := 0,
    Tokens := { input := 0, output := 0, reasoning := 0, cacheRead := 0, cacheWrite := 0 } }

def fullMsg : Message :=
  { ID := "msg1", ModelID := "m", ProviderID := "", Cost := 1,
    Tokens := { input := 5, output := 7, reasoning := 0, cacheRead := 0, cacheWrite := 0 } }

/-- C5 counterexample: the Aider log processor marks a `message_send` event
with zero token counts as seen (it inserts the dedup key before the
zero-token check), contradicting the claim that zero-token records are never
marked in the dedup set. -/
theorem C5_aider_marks_zero_seen :
    makeAiderEventKey zeroAiderEvent ∈
      (processAiderLine [] (Global 0) zeroAiderEvent 0).1 := by
  decide

/-- C5 (amended): the OpenCode parser leaves both the dedup set and the
tracker untouched on a zero-token message, so a later complete write with
the same id is accepted; the Aider processor does mark a zero-token
`message_send` event as seen, but under a key that includes the token count,
and a complete event whose key is not yet marked is still accepted. -/
theorem C5_zero_token_dedup :
    (∀ (price : String → Int → Int → Rat) (processed : List String) (tr : Tracker)
        (msg : Message) (now : Int),
      msg.Tokens.input = 0 → msg.Tokens.output = 0 →
      parseMessageFile price processed tr msg now = (processed, tr)) ∧
    (∀ (processed : List String) (tr : Tracker) (e : AiderAnalyticsEvent) (now : Int),
      e.event = "message_send" → e.properties.TotalTokens = 0 →
      makeAiderEventKey e ∉ processed →
      processAiderLine processed tr e now = (makeAiderEventKey e :: processed, tr)) ∧
    (∀ (processed : List String) (tr : Tracker) (e : AiderAnalyticsEvent) (now : Int),
      e.event = "message_send" → e.properties.TotalTokens ≠ 0 →
      makeAiderEventKey e ∉ processed →
      ((processAiderLine processed tr e now).2).SessionUsages.length
        = tr.SessionUsages.length + 1) ∧
    (∀ (price : String → Int → Int → Rat) (processed : List String) (tr : Tracker)
        (msg : Message) (now : Int),
      ¬ (msg.Tokens.input = 0 ∧ msg.Tokens.output = 0) → msg.ID ∉ processed →
      ((parseMessageFile price processed tr msg now).2).SessionUsages.length
        = tr.SessionUsages.length + 1) := by
  refine ⟨?_, ?_, ?_, ?_⟩
  · intro price processed tr msg now h1 h2
    unfold parseMessageFile
    rw [if_pos ⟨h1, h2⟩]
  · intro processed tr e now he h0 hnotin
    simp [processAiderLine, he, h0, hnotin]
  · intro processed tr e now he hnz hnotin
    simp [processAiderLine, he, hnz, hnotin, Tracker.AddUsage,
      sessionUsages_incrementToolEvents]
  · intro price processed tr msg now h hnotin
    simp [parseMessageFile, h, hnotin, Tracker.AddUsage,
      sessionUsages_incrementToolEvents]

theorem C5_zero_token_dedup_witness :
    parseMessageFile (fun _ _ _ => 0) [] (Global 0) zeroMsg 1 = ([], Global 0) ∧
    processAiderLine [] (Global 0) zeroAiderEvent 1
      = ([makeAiderEventKey zeroAiderEvent], Global 0) ∧
    ((processAiderLine [] (Global 0) fullAiderEvent 1).2).SessionUsages.length
      = (Global 0).SessionUsages.length + 1 ∧
    ((parseMessageFile (fun _ _ _ => 0) [] (Global 0) fullMsg 1).2).SessionUsages.length
      = (Global 0).SessionUsages.length + 1 :=
  ⟨C5_zero_token_dedup.1 (fun _ _ _ => 0) [] (Global 0) zeroMsg 1 rfl rfl,
   C5_zero_token_dedup.2.1 [] (Global 0) zeroAiderEvent 1 rfl rfl (by decide),
   C5_zero_token_dedup.2.2.1 [] (Global 0) fullAiderEvent 1 rfl (by decide) (by decide),
   C5_zero_token_dedup.2.2.2 (fun _ _ _ => 0) [] (Global 0) fullMsg 1 (by decide) (by decide)⟩

/-! C9 material. -/

def alphaStatus : ToolStatus :=
  { Name := "Alpha", Tier := TierFullTracking, Status := "active",
    Message := "", DashboardURL := "", EventCount := 0, LastEventTime := 0 }

def zetaStatus : ToolStatus :=
  { Name := "Zeta", Tier := TierFullTracking, Status := "active",
    Message := "", DashboardURL := "", EventCount := 0, LastEventTime := 0 }

def trackerZA : Tracker := ((Global 0).SetToolStatus zetaStatus).SetToolStatus alphaStatus

/-- C9 counterexample: the slice GetToolStatuses returns holds pointers into
the registry, so a subsequent IncrementToolEvents changes what an
already-returned result dereferences to — the returned sequence is not an
immutable snapshot. -/
theorem C9_snapshot_shares_pointers :
    viewRefs (((Global 0).SetToolStatus alphaStatus).IncrementToolEvents "Alpha" 5)
        (((Global 0).SetToolStatus alphaStatus).GetToolStatuses)
      ≠ viewRefs ((Global 0).SetToolStatus alphaStatus)
        (((Global 0).SetToolStatus alphaStatus).GetToolStatuses) := by
  decide

/-- C9 (amended): GetToolStatuses always returns the stored statuses sorted
by ascending Name; the returned sequence is a fresh slice, but it shares the
pointed-to ToolStatus objects with the registry, so a later
IncrementToolEvents on a registered name is visible through an
already-returned pointer. -/
theorem C9_sorted_and_shared (t : Tracker) :
    ((t.GetToolStatuses).map (nameAt t)).Sorted (· ≤ ·) ∧
    (∀ (name : String) (r : Nat) (now : Int) (s : ToolStatus),
      assocLookup name t.toolRefs = some r → t.statusAt r = some s →
      (t.IncrementToolEvents name now).statusAt r = some (bumpStatus now s)) := by
  constructor
  · unfold Tracker.GetToolStatuses
    haveI : IsTotal Nat fun r1 r2 => nameAt t r1 ≤ nameAt t r2 :=
      ⟨fun a b => le_total _ _⟩
    haveI : IsTrans Nat fun r1 r2 => nameAt t r1 ≤ nameAt t r2 :=
      ⟨fun a b c hab hbc => le_trans hab hbc⟩
    exact List.Pairwise.map _ (fun a b hab => hab) (List.sorted_insertionSort _ _)
  · intro name r now s hn hs
    have heq : t.IncrementToolEvents name now
        = { t with heap := heapBump r now t.heap } := by
      unfold Tracker.IncrementToolEvents
      rw [hn]
    rw [heq]
    unfold Tracker.statusAt at hs ⊢
    show assocLookup r (heapBump r now t.heap) = _
    rw [assocLookup_heapBump, if_pos rfl, hs]
    rfl

theorem C9_sorted_and_shared_witness :
    ((trackerZA.GetToolStatuses).map (nameAt trackerZA)).Sorted (· ≤ ·) ∧
    (trackerZA.IncrementToolEvents "Alpha" 5).statusAt 1
      = some (bumpStatus 5 alphaStatus) :=
  ⟨(C9_sorted_and_shared trackerZA).1,
   (C9_sorted_and_shared trackerZA).2 "Alpha" 1 5 alphaStatus (by decide) (by decide)⟩

end Burnrate
